import Mathlib

/-!
# Verification of the process-lifecycle syscall layer

Shallow embedding of `src/kernel/src/syscall/proc.rs` (the handlers
`sys_wait4`, `sys_exec`, `sys_kill`, `sys_exit`, `sys_set_priority`) over an
explicit kernel state.  External collaborators that are not part of the
source tree (the process manager, the user-memory validator, the VFS and the
thread factory) are modelled from the spec's collaborator contracts (§6);
pointers, trap frames, address spaces and open-file handles are abstract
identifiers (`Nat`, with `0` as the null pointer).  Machine-integer casts
(`as usize`, `as i32`, `as u8`) are modelled arithmetically with explicit
`% 2^w`.
-/

namespace RCore

/-- Kernel error codes surfaced to user mode (the subset this layer uses). -/
inductive SysError
  | EFAULT
  | EINVAL
  | ECHILD
  | EBADF
  | ENOENT
  | ENOMEM
  deriving DecidableEq

/-- Process status as held by the process manager.  The exit code is a
`usize` (`Nat`): the kill sentinel `0x100` does not fit in a byte. -/
inductive Status
  | ready
  | running
  | sleeping
  | waiting (target : Nat)
  | exited (code : Nat)
  deriving DecidableEq

/-- Association-list lookup keyed by `Nat` (first binding wins). -/
def alookup {α : Type} (k : Nat) : List (Nat × α) → Option α
  | [] => none
  | (k', v) :: rest => if k' = k then some v else alookup k rest

/-- Remove every binding for key `k` from an association list. -/
def eraseKey {α : Type} (k : Nat) : List (Nat × α) → List (Nat × α)
  | [] => []
  | (k', v) :: rest => if k' = k then eraseKey k rest else (k', v) :: eraseKey k rest

/-- Rebind every binding for key `k` to `v` (no-op when `k` is absent). -/
def updateAll {α : Type} (k : Nat) (v : α) : List (Nat × α) → List (Nat × α)
  | [] => []
  | (k', v') :: rest =>
    if k' = k then (k', v) :: updateAll k v rest else (k', v') :: updateAll k v rest

/-- Children of `parent` among a list of (parent, child) edges, in order. -/
def childrenOf (parent : Nat) : List (Nat × Nat) → List Nat
  | [] => []
  | e :: rest => if e.1 = parent then e.2 :: childrenOf parent rest else childrenOf parent rest

/-- Drop every edge that touches `pid` (as parent or as child). -/
def removeEdges (pid : Nat) : List (Nat × Nat) → List (Nat × Nat)
  | [] => []
  | e :: rest =>
    if e.1 = pid ∨ e.2 = pid then removeEdges pid rest else e :: removeEdges pid rest

/-- Modelled from the spec: the process manager (§6 collaborator contract),
which is not part of the source tree.  Parent/child edges, statuses and
priorities are kept as association lists keyed by pid. -/
structure Manager where
  edges : List (Nat × Nat)
  statuses : List (Nat × Status)
  priorities : List (Nat × Nat)
  deriving DecidableEq

/-- Modelled from the spec: `get_children(parent) → set<pid>`. -/
def Manager.getChildren (m : Manager) (parent : Nat) : List Nat :=
  childrenOf parent m.edges

/-- Modelled from the spec: `get_status(pid) → option<Status>`. -/
def Manager.getStatus (m : Manager) (pid : Nat) : Option Status :=
  alookup pid m.statuses

/-- Modelled from the spec: `remove(pid)` — after a reap "the record and its
id become unreferenceable" (§3 invariant 2). -/
def Manager.remove (m : Manager) (pid : Nat) : Manager :=
  { edges := removeEdges pid m.edges
    statuses := eraseKey pid m.statuses
    priorities := eraseKey pid m.priorities }

/-- Modelled from the spec: `exit(pid, code)` forces the target's status to
`Exited(code)`; on an absent target "the current minimal design silently
no-ops" (§4.5). -/
def Manager.exit (m : Manager) (pid : Nat) (code : Nat) : Manager :=
  if (alookup pid m.statuses).isSome then
    { m with statuses := updateAll pid (Status.exited code) m.statuses }
  else m

/-- Modelled from the spec: `set_priority(pid, u8)`. -/
def Manager.setPriority (m : Manager) (pid : Nat) (prio : Nat) : Manager :=
  { m with priorities := updateAll pid prio m.priorities }

/-- A process record: file table (fd ↦ open-file handle id), cwd, and the
address space (an abstract id), as in `Process` behind `proc.lock()`. -/
structure Process where
  files : List (Nat × Nat)
  cwd : String
  memSet : Nat
  deriving DecidableEq

/-- A thread: kernel stack (abstract id), context (abstract id, from which
the loader derives the initial trap frame), and its process. -/
structure Thread where
  kstack : Nat
  context : Nat
  proc : Process
  deriving DecidableEq

/-- Scheduler events emitted by the handlers (blocking registration and
`yield_now`), recorded as a trace, most recent first. -/
inductive Event
  | yieldNow
  | waitChild (parent : Nat)
  | waitOn (pid : Nat) (target : Nat)
  deriving DecidableEq

/-- The kernel state visible to this layer: the current thread and its pid,
the trap frame passed by the trap entry (abstract id), the active address
space, the process manager, the user-memory writes performed so far
(address ↦ 32-bit value, most recent first) and the scheduler-event trace. -/
structure KState where
  curPid : Nat
  cur : Thread
  tf : Nat
  activeMem : Nat
  mgr : Manager
  mem : List (Nat × Int)
  trace : List Event
  deriving DecidableEq

/-- Modelled from the spec: the environment of collaborators (§6) —
user-pointer validator (`check_mut_ptr`, `check_and_clone_cstr`), raw
pointer-sized user-memory loads (for the unchecked `*current_argv`
dereference; addresses counted in pointer-sized words), the VFS
(`lookup`, `metadata().size`, `read_at`), and the thread factory
(`new_user`, `context.get_init_tf`). -/
structure Env where
  checkMutPtr : Nat → Bool
  checkCStr : Nat → Option String
  loadPtr : Nat → Nat
  vfsLookup : String → Except SysError Nat
  metadataSize : Nat → Except SysError Nat
  readAt : Nat → Nat → Except SysError (List Nat)
  newUser : List Nat → List String → Thread
  getInitTf : Nat → Nat

/-- Outcome of a handler invocation: a normal return with the resulting
state, an error return, a suspension (`wait4` registered interest and
yielded; the source loops and re-polls after wakeup), a kernel panic
(`unimplemented!`, out-of-bounds index, failed `unwrap`), or divergence
(the argv scan ran out of fuel, i.e. no null terminator was reached). -/
inductive Outcome
  | ok (val : Nat) (s : KState)
  | err (e : SysError) (s : KState)
  | block (s : KState)
  | panic
  | diverge
  deriving DecidableEq

/-- `exit` has return type `!`: it either reaches its terminal yield or
panics; it never produces a return value. -/
inductive ExitOutcome
  | terminated (s : KState)
  | panic
  deriving DecidableEq

/-- `isize → usize` cast (`exit_code as usize`): the bit pattern, i.e. the
value modulo `2^64`. -/
def isizeToUsize (c : Int) : Nat := (c % (2 : Int) ^ 64).toNat

/-- `usize → i32` cast (`exit_code as i32`): truncate to the low 32 bits and
reinterpret as a signed 32-bit value. -/
def usizeToI32 (n : Nat) : Int :=
  let m : Nat := n % 2 ^ 32
  if m < 2 ^ 31 then (m : Int) else (m : Int) - 2 ^ 32

/-- `usize → u8` cast (`priority as u8`): the low byte. -/
def usizeToU8 (n : Nat) : Nat := n % 256

/-- The `wait4` selector (`WaitFor` in the source). -/
inductive WaitFor
  | anyChild
  | pid (p : Nat)
  deriving DecidableEq

/-- The selector match at the top of `sys_wait4`: `-1` → any child,
`p > 0` → that child, anything else → `unimplemented!` (`none` here). -/
def selectTarget (pid : Int) : Option WaitFor :=
  if pid = -1 then some WaitFor.anyChild
  else if 0 < pid then some (WaitFor.pid pid.toNat)
  else none

/-- The candidate list (`wait_procs`) computed each round: all children in
any-child mode; `[pid]` when the given pid is one of the caller's children,
else `[]`, in specific-pid mode. -/
def candidates (m : Manager) (caller : Nat) : WaitFor → List Nat
  | WaitFor.anyChild => m.getChildren caller
  | WaitFor.pid p => if p ∈ m.getChildren caller then [p] else []

/-- The state after reaping child `c` with exit code `code`: the `*wstatus`
write (when `wstatus` is non-null) followed by `manager().remove(pid)`. -/
def reapState (wstatus : Nat) (code : Nat) (c : Nat) (s : KState) : KState :=
  let s1 := if wstatus ≠ 0 then { s with mem := (wstatus, usizeToI32 code) :: s.mem } else s
  { s1 with mgr := s1.mgr.remove c }

/-- The `for pid in wait_procs` scan: the first candidate whose status is
`Exited(code)` is reaped (write `code as i32` to `*wstatus` when non-null,
remove the record, return its pid); a candidate with no status record
returns `ECHILD`; otherwise fall through (`none`). -/
def reapFirst (wstatus : Nat) (s : KState) : List Nat → Option Outcome
  | [] => none
  | p :: rest =>
    match s.mgr.getStatus p with
    | some (Status.exited code) => some (Outcome.ok p (reapState wstatus code p s))
    | none => some (Outcome.err SysError.ECHILD s)
    | some _ => reapFirst wstatus s rest

/-- `sys_wait4(pid, wstatus)`: validate `wstatus` (when non-null), match the
selector (panicking on `pid = 0` or `pid < -1`), compute the candidate list,
return `ECHILD` when it is empty, scan it, and otherwise register a blocking
interest and yield.  This embeds one iteration of the source's `loop`; the
source re-runs the body after being woken, with a possibly changed manager,
so the suspension is surfaced as `Outcome.block`. -/
def sys_wait4 (env : Env) (pid : Int) (wstatus : Nat) (s : KState) : Outcome :=
  if wstatus ≠ 0 ∧ ¬ env.checkMutPtr wstatus then Outcome.err SysError.EFAULT s
  else
    match selectTarget pid with
    | none => Outcome.panic
    | some target =>
      let waitProcs := candidates s.mgr s.curPid target
      if waitProcs.isEmpty then Outcome.err SysError.ECHILD s
      else
        match reapFirst wstatus s waitProcs with
        | some o => o
        | none =>
          let ev := match target with
            | WaitFor.anyChild => Event.waitChild s.curPid
            | WaitFor.pid p => Event.waitOn s.curPid p
          Outcome.block { s with trace := Event.yieldNow :: ev :: s.trace }

/-- The argv-copy loop of `sys_exec`: follow `current_argv` while the loaded
entry is non-null, validating and cloning each C string; `none` when `fuel`
runs out (the source would keep scanning user memory). -/
def collectArgs (env : Env) : Nat → Nat → List String → Option (Except SysError (List String))
  | 0, _, _ => none
  | fuel + 1, p, acc =>
    if env.loadPtr p = 0 then some (Except.ok acc)
    else
      match env.checkCStr (env.loadPtr p) with
      | none => some (Except.error SysError.EFAULT)
      | some arg => collectArgs env fuel (p + 1) (acc ++ [arg])

/-- `sys_exec(name, argv, envp, tf)`: clone `name` (null tolerated as `""`),
reject a null `argv` with `EINVAL`, copy the argv vector, resolve `args[0]`
through the VFS (indexing an empty vector panics), read the image, build the
new thread, inherit the caller's file table and cwd, activate the new
address space, overwrite the trap frame with the loader's initial trap
frame, swap kernel stacks and then swap the whole thread structs.  `envp` is
accepted and ignored, as in the source. -/
def sys_exec (env : Env) (fuel : Nat) (name argvp _envp : Nat) (s : KState) : Outcome :=
  match (if name = 0 then some "" else env.checkCStr name : Option String) with
  | none => Outcome.err SysError.EFAULT s
  | some _ =>
    if argvp = 0 then Outcome.err SysError.EINVAL s
    else
      match collectArgs env fuel argvp [] with
      | none => Outcome.diverge
      | some (Except.error e) => Outcome.err e s
      | some (Except.ok args) =>
        match args with
        | [] => Outcome.panic
        | path :: _ =>
          match env.vfsLookup path with
          | Except.error e => Outcome.err e s
          | Except.ok inode =>
            match env.metadataSize inode with
            | Except.error e => Outcome.err e s
            | Except.ok size =>
              match env.readAt inode size with
              | Except.error e => Outcome.err e s
              | Except.ok buf =>
                let thread0 := env.newUser buf args
                let thread1 := { thread0 with
                  proc := { thread0.proc with
                    files := s.cur.proc.files
                    cwd := s.cur.proc.cwd } }
                let s1 := { s with activeMem := thread1.proc.memSet }
                let s2 := { s1 with tf := env.getInitTf thread1.context }
                let swap1 : Thread × Thread :=
                  ({ s2.cur with kstack := thread1.kstack },
                   { thread1 with kstack := s2.cur.kstack })
                let swap2 : Thread × Thread := (swap1.2, swap1.1)
                Outcome.ok 0 { s2 with cur := swap2.1 }

/-- `sys_kill(pid)`: force the target into `Exited(0x100)` via the manager;
when the target is the caller, yield immediately. -/
def sys_kill (s : KState) (pid : Nat) : Outcome :=
  let s1 := { s with mgr := s.mgr.exit pid 0x100 }
  let s2 := if pid = s.curPid then { s1 with trace := Event.yieldNow :: s1.trace } else s1
  Outcome.ok 0 s2

/-- Modelled from the spec: `sys_close_internal` (defined in the file-system
syscall file, not in the source tree) removes the fd from the caller's file
table, `Ok(0)` when it was present and `Err(EBADF)` otherwise. -/
def sys_close_internal (p : Process) (fd : Nat) : Except SysError (Nat × Process) :=
  if (alookup fd p.files).isSome then
    Except.ok (0, { p with files := eraseKey fd p.files })
  else Except.error SysError.EBADF

/-- The fd-closing loop of `sys_exit`: `sys_close_internal(..).unwrap()` on
each collected fd — a failed close panics (`none`). -/
def closeAll (p : Process) : List Nat → Option Process
  | [] => some p
  | fd :: rest =>
    match sys_close_internal p fd with
    | Except.error _ => none
    | Except.ok (_, p1) => closeAll p1 rest

/-- `sys_exit(code)`: collect the caller's fds, close each with `unwrap`,
record `Exited(code as usize)` with the manager, and yield terminally. -/
def sys_exit (s : KState) (exitCode : Int) : ExitOutcome :=
  let fds := s.cur.proc.files.map (fun q => q.1)
  match closeAll s.cur.proc fds with
  | none => ExitOutcome.panic
  | some p1 =>
    let s1 := { s with cur := { s.cur with proc := p1 } }
    let s2 := { s1 with mgr := s1.mgr.exit s1.curPid (isizeToUsize exitCode) }
    ExitOutcome.terminated { s2 with trace := Event.yieldNow :: s2.trace }

/-- `sys_set_priority(priority)`: assign `priority as u8` to the caller's
record and return 0. -/
def sys_set_priority (s : KState) (priority : Nat) : Outcome :=
  Outcome.ok 0 { s with mgr := s.mgr.setPriority s.curPid (usizeToU8 priority) }

/-- The caller's state after a successful `sys_exec`: the new thread built
from `buf`/`args` with the caller's file table, cwd and kernel stack, the
new address space active, and the loader's initial trap frame installed. -/
def execSuccState (env : Env) (s : KState) (buf : List Nat) (args : List String) : KState :=
  { s with
    activeMem := (env.newUser buf args).proc.memSet
    tf := env.getInitTf (env.newUser buf args).context
    cur :=
      { kstack := s.cur.kstack
        context := (env.newUser buf args).context
        proc :=
          { files := s.cur.proc.files
            cwd := s.cur.proc.cwd
            memSet := (env.newUser buf args).proc.memSet } } }

/-- Observer: the caller's manager-recorded status after `sys_exit` (`none`
when `sys_exit` panics). -/
def exitStatusAfter (s : KState) (c : Int) : Option Status :=
  match sys_exit s c with
  | ExitOutcome.terminated s' => s'.mgr.getStatus s.curPid
  | ExitOutcome.panic => none

/-- Observer: the caller's priority record after `sys_set_priority`. -/
def priorityAfter (s : KState) (p : Nat) : Option Nat :=
  match sys_set_priority s p with
  | Outcome.ok _ s' => alookup s.curPid s'.mgr.priorities
  | _ => none

/-- Concrete thread fixture for witnesses. -/
def wThread : Thread := ⟨3, 0, ⟨[(0, 10), (2, 20)], "/home", 5⟩⟩

/-- Concrete manager fixture: pid 1 (ready, priority 5) is the parent of
pid 2, which has exited with code 7. -/
def wMgr : Manager := ⟨[(1, 2)], [(1, Status.ready), (2, Status.exited 7)], [(1, 5)]⟩

/-- Concrete kernel-state fixture: pid 1 running `wThread`. -/
def wstate : KState := ⟨1, wThread, 0, 5, wMgr, [], []⟩

/-- Concrete collaborator environment: every pointer validates, user memory
holds null pointers, the VFS resolves everything to an empty image. -/
def wEnv : Env where
  checkMutPtr := fun _ => true
  checkCStr := fun _ => some "a"
  loadPtr := fun _ => 0
  vfsLookup := fun _ => Except.ok 1
  metadataSize := fun _ => Except.ok 0
  readAt := fun _ _ => Except.ok []
  newUser := fun _ _ => ⟨7, 9, ⟨[(5, 50)], "new", 42⟩⟩
  getInitTf := fun c => c + 100

/-- Like `wEnv`, but user address 8 holds one non-null argv entry. -/
def wEnv2 : Env := { wEnv with loadPtr := fun p => if p = 8 then 77 else 0 }

/-- Manager fixture with both pids alive (for `kill` / `exit` witnesses). -/
def wMgrLive : Manager := ⟨[(1, 2)], [(1, Status.ready), (2, Status.ready)], []⟩

/-- Kill witness fixture: pid 1 about to kill its child pid 2. -/
def wstate6 : KState := ⟨1, wThread, 0, 5, wMgrLive, [], []⟩

/-- Exit witness fixture: the child pid 2 about to exit. -/
def wstate4 : KState := ⟨2, wThread, 0, 5, wMgrLive, [], []⟩

/-- The parent pid 1 polling `wait4` after pid 2 exited with code 256. -/
def wParent4 : KState :=
  ⟨1, wThread, 0, 5, ⟨[(1, 2)], [(1, Status.ready), (2, Status.exited 256)], []⟩, [], []⟩

/-- The state `sys_exit wstate4 256` terminates in: fds closed, status of
pid 2 now `Exited(256)`, terminal yield traced. -/
def wExit4 : KState :=
  ⟨2, ⟨3, 0, ⟨[], "/home", 5⟩⟩, 0, 5,
   ⟨[(1, 2)], [(1, Status.ready), (2, Status.exited 256)], []⟩, [], [Event.yieldNow]⟩

/-- The state `sys_kill wstate6 2` returns: pid 2 forced to `Exited(0x100)`,
no yield (the target is not the caller). -/
def wKill6 : KState :=
  ⟨1, wThread, 0, 5, ⟨[(1, 2)], [(1, Status.ready), (2, Status.exited 256)], []⟩, [], []⟩

/-! ## General lemmas about the association-list and manager operations -/

theorem alookup_eraseKey_self {α : Type} (k : Nat) (l : List (Nat × α)) :
    alookup k (eraseKey k l) = none := by
  induction l with
  | nil => rfl
  | cons hd tl ih =>
    obtain ⟨k', v⟩ := hd
    by_cases h : k' = k
    · simp [eraseKey, h, ih]
    · simp [eraseKey, h, alookup, ih]

theorem eraseKey_of_not_mem {α : Type} (k : Nat) (l : List (Nat × α))
    (h : k ∉ l.map (fun q => q.1)) : eraseKey k l = l := by
  induction l with
  | nil => rfl
  | cons hd tl ih =>
    obtain ⟨k', v⟩ := hd
    simp only [List.map_cons, List.mem_cons] at h
    push_neg at h
    have hne : ¬ k' = k := fun hk => h.1 hk.symm
    simp [eraseKey, hne, ih h.2]

theorem alookup_updateAll_of_isSome {α : Type} (k : Nat) (v : α) (l : List (Nat × α))
    (h : (alookup k l).isSome) : alookup k (updateAll k v l) = some v := by
  induction l with
  | nil => simp [alookup] at h
  | cons hd tl ih =>
    obtain ⟨k', v'⟩ := hd
    by_cases hk : k' = k
    · simp [updateAll, hk, alookup]
    · simp only [alookup, if_neg hk] at h
      simp [updateAll, hk, alookup, ih h]

theorem childrenOf_removeEdges_of_nil (parent pid : Nat) (l : List (Nat × Nat))
    (h : childrenOf parent l = []) : childrenOf parent (removeEdges pid l) = [] := by
  induction l with
  | nil => rfl
  | cons hd tl ih =>
    by_cases hp : hd.1 = parent
    · simp [childrenOf, hp] at h
    · simp only [childrenOf, if_neg hp] at h
      by_cases hr : hd.1 = pid ∨ hd.2 = pid
      · simp [removeEdges, hr, ih h]
      · simp [removeEdges, hr, childrenOf, hp, ih h]

theorem childrenOf_removeEdges_of_singleton (parent c : Nat) (l : List (Nat × Nat))
    (h : childrenOf parent l = [c]) : childrenOf parent (removeEdges c l) = [] := by
  induction l with
  | nil => simp [childrenOf] at h
  | cons hd tl ih =>
    by_cases hp : hd.1 = parent
    · simp only [childrenOf, if_pos hp, List.cons.injEq] at h
      have hrm : hd.1 = c ∨ hd.2 = c := Or.inr h.1
      simp [removeEdges, hrm, childrenOf_removeEdges_of_nil parent c tl h.2]
    · simp only [childrenOf, if_neg hp] at h
      by_cases hr : hd.1 = c ∨ hd.2 = c
      · simp [removeEdges, hr, ih h]
      · simp [removeEdges, hr, childrenOf, hp, ih h]

theorem Manager.exit_edges (m : Manager) (pid code : Nat) :
    (m.exit pid code).edges = m.edges := by
  unfold Manager.exit
  split <;> rfl

theorem Manager.exit_getStatus_self (m : Manager) (pid code : Nat)
    (h : (alookup pid m.statuses).isSome) :
    (m.exit pid code).getStatus pid = some (Status.exited code) := by
  unfold Manager.exit Manager.getStatus
  rw [if_pos h]
  exact alookup_updateAll_of_isSome pid _ m.statuses h

theorem Manager.remove_getStatus_self (m : Manager) (pid : Nat) :
    (m.remove pid).getStatus pid = none :=
  alookup_eraseKey_self pid m.statuses

/-! ## Lemmas about the `wait4` scan and selector -/

theorem reapFirst_eq_none (ws : Nat) (s : KState) (l : List Nat)
    (h : reapFirst ws s l = none) :
    ∀ p ∈ l, ∃ st, s.mgr.getStatus p = some st ∧ ∀ code, st ≠ Status.exited code := by
  induction l with
  | nil => intro p hp; cases hp
  | cons q rest ih =>
    intro p hp
    rw [reapFirst] at h
    match hst : s.mgr.getStatus q with
    | some (Status.exited code) => rw [hst] at h; cases h
    | none => rw [hst] at h; cases h
    | some Status.ready =>
      rw [hst] at h
      rcases List.mem_cons.mp hp with hpq | hpr
      · exact hpq ▸ ⟨Status.ready, hst, by intro code hc; cases hc⟩
      · exact ih h p hpr
    | some Status.running =>
      rw [hst] at h
      rcases List.mem_cons.mp hp with hpq | hpr
      · exact hpq ▸ ⟨Status.running, hst, by intro code hc; cases hc⟩
      · exact ih h p hpr
    | some Status.sleeping =>
      rw [hst] at h
      rcases List.mem_cons.mp hp with hpq | hpr
      · exact hpq ▸ ⟨Status.sleeping, hst, by intro code hc; cases hc⟩
      · exact ih h p hpr
    | some (Status.waiting t) =>
      rw [hst] at h
      rcases List.mem_cons.mp hp with hpq | hpr
      · exact hpq ▸ ⟨Status.waiting t, hst, by intro code hc; cases hc⟩
      · exact ih h p hpr

theorem reapFirst_some_ne_block (ws : Nat) (s : KState) (l : List Nat) (o : Outcome)
    (h : reapFirst ws s l = some o) : ∀ s', o ≠ Outcome.block s' := by
  induction l with
  | nil => cases h
  | cons q rest ih =>
    rw [reapFirst] at h
    match hst : s.mgr.getStatus q with
    | some (Status.exited code) =>
      rw [hst] at h
      cases h
      intro s' hc
      cases hc
    | none =>
      rw [hst] at h
      cases h
      intro s' hc
      cases hc
    | some Status.ready => rw [hst] at h; exact ih h
    | some Status.running => rw [hst] at h; exact ih h
    | some Status.sleeping => rw [hst] at h; exact ih h
    | some (Status.waiting t) => rw [hst] at h; exact ih h

theorem selectTarget_pos (p : Nat) (hp : 0 < p) :
    selectTarget (p : Int) = some (WaitFor.pid p) := by
  unfold selectTarget
  rw [if_neg (by omega), if_pos (by omega)]
  simp

theorem wstatus_gate_false (env : Env) (ws : Nat) (hws : ws = 0 ∨ env.checkMutPtr ws = true) :
    ¬ (ws ≠ 0 ∧ ¬ env.checkMutPtr ws = true) := by
  rcases hws with h | h
  · intro hc; exact hc.1 h
  · intro hc; exact hc.2 h

theorem sys_wait4_pid_reap (env : Env) (s : KState) (c code ws : Nat)
    (hc : 0 < c)
    (hmem : c ∈ s.mgr.getChildren s.curPid)
    (hst : s.mgr.getStatus c = some (Status.exited code))
    (hws : ws = 0 ∨ env.checkMutPtr ws = true) :
    sys_wait4 env (c : Int) ws s = Outcome.ok c (reapState ws code c s) := by
  unfold sys_wait4
  rw [if_neg (wstatus_gate_false env ws hws), selectTarget_pos c hc]
  simp only [candidates, if_pos hmem, List.isEmpty_cons, reapFirst, hst]
  rfl

theorem selectTarget_neg_one : selectTarget (-1) = some WaitFor.anyChild := rfl

theorem sys_wait4_any_reap_singleton (env : Env) (s : KState) (c code ws : Nat)
    (hch : s.mgr.getChildren s.curPid = [c])
    (hst : s.mgr.getStatus c = some (Status.exited code))
    (hws : ws = 0 ∨ env.checkMutPtr ws = true) :
    sys_wait4 env (-1) ws s = Outcome.ok c (reapState ws code c s) := by
  unfold sys_wait4
  rw [if_neg (wstatus_gate_false env ws hws), selectTarget_neg_one]
  simp only [candidates, hch, List.isEmpty_cons, reapFirst, hst]
  rfl

theorem reapState_mem_lookup (ws code c : Nat) (s : KState) (hws : ws ≠ 0) :
    alookup ws (reapState ws code c s).mem = some (usizeToI32 code) := by
  unfold reapState
  simp [if_pos hws, alookup]

/-! ## Characterization of `sys_exec` and `sys_exit` -/

theorem sys_exec_cases (env : Env) (fuel name argvp envp : Nat) (s : KState) :
    (∃ e, sys_exec env fuel name argvp envp s = Outcome.err e s) ∨
    sys_exec env fuel name argvp envp s = Outcome.panic ∨
    sys_exec env fuel name argvp envp s = Outcome.diverge ∨
    (∃ buf args, sys_exec env fuel name argvp envp s = Outcome.ok 0 (execSuccState env s buf args)) := by
  unfold sys_exec
  repeat' split
  all_goals
    first
    | exact Or.inl ⟨_, rfl⟩
    | exact Or.inr (Or.inl rfl)
    | exact Or.inr (Or.inr (Or.inl rfl))
    | exact Or.inr (Or.inr (Or.inr ⟨_, _, rfl⟩))

theorem closeAll_of_nodup_keys (l : List Nat) : ∀ p : Process,
    p.files.map (fun q => q.1) = l → l.Nodup →
    closeAll p l = some { p with files := [] } := by
  induction l with
  | nil =>
    intro p hmap _
    have hf : p.files = [] := List.map_eq_nil_iff.mp hmap
    rw [closeAll]
    cases p
    simp_all
  | cons fd rest ih =>
    intro p hmap hnodup
    match hfs : p.files with
    | [] => rw [hfs] at hmap; simp at hmap
    | q :: fs =>
      rw [hfs] at hmap
      simp only [List.map_cons, List.cons.injEq] at hmap
      have hq1 : q.1 = fd := hmap.1
      have hrest : fs.map (fun r => r.1) = rest := hmap.2
      have hfd_not : fd ∉ fs.map (fun r => r.1) := by
        rw [hrest]
        exact (List.nodup_cons.mp hnodup).1
      rw [closeAll]
      have hlook : alookup fd p.files = some q.2 := by
        rw [hfs, alookup, if_pos hq1]
      rw [sys_close_internal, if_pos (by rw [hlook]; rfl)]
      have herase : eraseKey fd p.files = fs := by
        rw [hfs, eraseKey, if_pos hq1]
        exact eraseKey_of_not_mem fd fs hfd_not
      rw [herase]
      exact ih { p with files := fs } hrest (List.nodup_cons.mp hnodup).2

theorem sys_exit_terminated (s : KState) (c : Int)
    (hnodup : (s.cur.proc.files.map (fun q => q.1)).Nodup) :
    sys_exit s c = ExitOutcome.terminated
      { s with
        cur := { s.cur with proc := { s.cur.proc with files := [] } }
        mgr := s.mgr.exit s.curPid (isizeToUsize c)
        trace := Event.yieldNow :: s.trace } := by
  unfold sys_exit
  simp only [closeAll_of_nodup_keys _ s.cur.proc rfl hnodup]

/-! ## Machine-integer cast lemmas -/

theorem usizeToI32_isizeToUsize_emod (c : Int) :
    usizeToI32 (isizeToUsize c) % 256 = c % 256 := by
  unfold usizeToI32 isizeToUsize
  have h0 : (0 : Int) ≤ c % 2 ^ 64 := Int.emod_nonneg c (by norm_num)
  have hcast : (((c % 2 ^ 64).toNat : Int)) = c % 2 ^ 64 := Int.toNat_of_nonneg h0
  dsimp only
  split
  · omega
  · omega

/-! ## Claim theorems -/

/-- C1: every invocation of `sys_exec` that returns an error (failing
user-pointer validation, null argv, failed VFS lookup/metadata/read) leaves
the caller's state unchanged: trap frame, active address space, file table,
cwd, kernel stack, manager — every fallible step completes before any
mutation of the caller. -/
theorem exec_error_leaves_caller_intact (env : Env) (fuel name argvp envp : Nat)
    (s : KState) (e : SysError) (s' : KState)
    (h : sys_exec env fuel name argvp envp s = Outcome.err e s') : s' = s := by
  rcases sys_exec_cases env fuel name argvp envp s with ⟨e', he⟩ | hp | hd | ⟨buf, args, ho⟩
  · rw [he] at h
    injection h with h1 h2
    exact h2.symm
  · rw [hp] at h; cases h
  · rw [hd] at h; cases h
  · rw [ho] at h; cases h

theorem exec_error_leaves_caller_intact_witness :
    sys_exec wEnv 1 0 0 0 wstate = Outcome.err SysError.EINVAL wstate ∧ wstate = wstate :=
  ⟨by decide, exec_error_leaves_caller_intact wEnv 1 0 0 0 wstate SysError.EINVAL wstate (by decide)⟩

/-- C2: every invocation of `sys_exec` that returns `Ok(0)` leaves the
caller's pid and manager record untouched, the file table and cwd equal to
their pre-call values (inherited by the new image), the original kernel
stack in place, and the trap frame equal to the initial trap frame the
loader produced for the new image. -/
theorem exec_ok_inherits_caller_identity (env : Env) (fuel name argvp envp : Nat)
    (s : KState) (v : Nat) (s' : KState)
    (h : sys_exec env fuel name argvp envp s = Outcome.ok v s') :
    v = 0 ∧ s'.curPid = s.curPid ∧ s'.mgr = s.mgr ∧
    s'.cur.proc.files = s.cur.proc.files ∧ s'.cur.proc.cwd = s.cur.proc.cwd ∧
    s'.cur.kstack = s.cur.kstack ∧
    ∃ buf args, s'.tf = env.getInitTf (env.newUser buf args).context := by
  rcases sys_exec_cases env fuel name argvp envp s with ⟨e', he⟩ | hp | hd | ⟨buf, args, ho⟩
  · rw [he] at h; cases h
  · rw [hp] at h; cases h
  · rw [hd] at h; cases h
  · rw [ho] at h
    injection h with h1 h2
    subst h2
    exact ⟨h1.symm, rfl, rfl, rfl, rfl, rfl, buf, args, rfl⟩

theorem exec_ok_inherits_caller_identity_witness :
    sys_exec wEnv2 4 0 8 0 wstate = Outcome.ok 0 (execSuccState wEnv2 wstate [] ["a"]) ∧
    (0 = 0 ∧ (execSuccState wEnv2 wstate [] ["a"]).curPid = wstate.curPid ∧
      (execSuccState wEnv2 wstate [] ["a"]).mgr = wstate.mgr ∧
      (execSuccState wEnv2 wstate [] ["a"]).cur.proc.files = wstate.cur.proc.files ∧
      (execSuccState wEnv2 wstate [] ["a"]).cur.proc.cwd = wstate.cur.proc.cwd ∧
      (execSuccState wEnv2 wstate [] ["a"]).cur.kstack = wstate.cur.kstack ∧
      ∃ buf args,
        (execSuccState wEnv2 wstate [] ["a"]).tf = wEnv2.getInitTf (wEnv2.newUser buf args).context) :=
  ⟨by decide,
   exec_ok_inherits_caller_identity wEnv2 4 0 8 0 wstate 0
     (execSuccState wEnv2 wstate [] ["a"]) (by decide)⟩

/-- C8 counterexample: `sys_set_priority 300` stores `300 as u8 = 44` in the
caller's record, not the claimed clamped value `255`. -/
theorem set_priority_clamp_cx : priorityAfter wstate 300 = some 44 ∧ (44 : Nat) ≠ 255 := by
  decide

/-- C8 (amended): `sys_set_priority` truncates the priority argument to its
low byte (`p % 256`, the `as u8` cast) — it does not clamp values above 255
to 255 — assigns it to the caller's record, and returns 0. -/
theorem set_priority_truncates_low_byte (s : KState) (p : Nat) :
    sys_set_priority s p =
      Outcome.ok 0 { s with mgr := s.mgr.setPriority s.curPid (p % 256) } := rfl

/-- C9: an `exec` whose argv pointer is non-null but whose first entry is
the null pointer copies an empty argument vector and then panics indexing
`args[0]` (given that the `name` pointer itself is null or validates, the
step that precedes the argv scan). -/
theorem exec_empty_argv_panics (env : Env) (fuel name argvp envp : Nat) (s : KState)
    (hname : name = 0 ∨ (env.checkCStr name).isSome)
    (hargv : argvp ≠ 0)
    (hfirst : env.loadPtr argvp = 0)
    (hfuel : 0 < fuel) :
    sys_exec env fuel name argvp envp s = Outcome.panic := by
  obtain ⟨f, rfl⟩ : ∃ f, fuel = f + 1 := ⟨fuel - 1, by omega⟩
  have hval : ∃ str, (if name = 0 then some "" else env.checkCStr name) = some str := by
    by_cases hn : name = 0
    · exact ⟨"", by rw [if_pos hn]⟩
    · rcases hname with h0 | hs
      · exact absurd h0 hn
      · obtain ⟨str, hstr⟩ := Option.isSome_iff_exists.mp hs
        exact ⟨str, by rw [if_neg hn, hstr]⟩
  obtain ⟨str, hstr⟩ := hval
  have hcol : collectArgs env (f + 1) argvp [] = some (Except.ok []) := by
    rw [collectArgs, if_pos hfirst]
  unfold sys_exec
  rw [hstr]
  simp only [if_neg hargv, hcol]

theorem exec_empty_argv_panics_witness :
    ((0 : Nat) = 0 ∨ (wEnv.checkCStr 0).isSome) ∧ (8 : Nat) ≠ 0 ∧ wEnv.loadPtr 8 = 0 ∧
    (0 : Nat) < 1 ∧ sys_exec wEnv 1 0 8 0 wstate = Outcome.panic :=
  ⟨Or.inl rfl, by decide, rfl, by decide,
   exec_empty_argv_panics wEnv 1 0 8 0 wstate (Or.inl rfl) (by decide) rfl (by decide)⟩

/-- C10: with a null-or-valid `wstatus` pointer, `sys_wait4` with `pid = 0`
or `pid < -1` reaches the selector match's catch-all and diverges via
`unimplemented!` instead of returning an error; only `pid = -1` and
`pid > 0` get past the selector. -/
theorem wait4_bad_selector_panics (env : Env) (pid : Int) (ws : Nat) (s : KState)
    (hws : ws = 0 ∨ env.checkMutPtr ws = true)
    (hbad : pid = 0 ∨ pid < -1) :
    sys_wait4 env pid ws s = Outcome.panic := by
  have hsel : selectTarget pid = none := by
    unfold selectTarget
    rw [if_neg (by omega), if_neg (by omega)]
  unfold sys_wait4
  rw [if_neg (wstatus_gate_false env ws hws), hsel]

theorem wait4_bad_selector_panics_witness :
    ((100 : Nat) = 0 ∨ wEnv.checkMutPtr 100 = true) ∧ ((0 : Int) = 0 ∨ (0 : Int) < -1) ∧
    sys_wait4 wEnv 0 100 wstate = Outcome.panic :=
  ⟨Or.inr rfl, Or.inl rfl, wait4_bad_selector_panics wEnv 0 100 wstate (Or.inr rfl) (Or.inl rfl)⟩

theorem reapState_mgr (ws code c : Nat) (s : KState) :
    (reapState ws code c s).mgr = s.mgr.remove c := by
  unfold reapState
  split <;> rfl

theorem reapState_curPid (ws code c : Nat) (s : KState) :
    (reapState ws code c s).curPid = s.curPid := by
  unfold reapState
  split <;> rfl

/-- C3: a `sys_wait4` selecting an `Exited(code)` child writes `code` to
`*wstatus` (non-null here), removes the child's record from the manager and
returns the child's pid; a second `sys_wait4` with the same selector, the
caller having no other children, returns `ECHILD` — the child is reaped
exactly once. -/
theorem wait4_reaps_exited_child_exactly_once (env : Env) (s : KState) (c code ws : Nat)
    (hc : 0 < c)
    (hchild : s.mgr.getChildren s.curPid = [c])
    (hst : s.mgr.getStatus c = some (Status.exited code))
    (hws : ws ≠ 0)
    (hvalid : env.checkMutPtr ws = true) :
    sys_wait4 env (c : Int) ws s = Outcome.ok c (reapState ws code c s) ∧
    alookup ws (reapState ws code c s).mem = some (usizeToI32 code) ∧
    (reapState ws code c s).mgr.getStatus c = none ∧
    sys_wait4 env (c : Int) ws (reapState ws code c s) =
      Outcome.err SysError.ECHILD (reapState ws code c s) := by
  have hmem : c ∈ s.mgr.getChildren s.curPid := by
    rw [hchild]
    exact List.mem_singleton.mpr rfl
  have hch2 : (reapState ws code c s).mgr.getChildren (reapState ws code c s).curPid = [] := by
    rw [reapState_curPid, reapState_mgr]
    exact childrenOf_removeEdges_of_singleton s.curPid c s.mgr.edges hchild
  refine ⟨sys_wait4_pid_reap env s c code ws hc hmem hst (Or.inr hvalid),
          reapState_mem_lookup ws code c s hws, ?_, ?_⟩
  · rw [reapState_mgr]
    exact Manager.remove_getStatus_self s.mgr c
  · unfold sys_wait4
    rw [if_neg (wstatus_gate_false env ws (Or.inr hvalid)), selectTarget_pos c hc]
    simp [candidates, hch2]

theorem wait4_reaps_exited_child_exactly_once_witness :
    wstate.mgr.getChildren wstate.curPid = [2] ∧
    wstate.mgr.getStatus 2 = some (Status.exited 7) ∧
    (sys_wait4 wEnv 2 100 wstate = Outcome.ok 2 (reapState 100 7 2 wstate) ∧
     alookup 100 (reapState 100 7 2 wstate).mem = some (usizeToI32 7) ∧
     (reapState 100 7 2 wstate).mgr.getStatus 2 = none ∧
     sys_wait4 wEnv 2 100 (reapState 100 7 2 wstate) =
       Outcome.err SysError.ECHILD (reapState 100 7 2 wstate)) :=
  ⟨by decide, by decide,
   wait4_reaps_exited_child_exactly_once wEnv wstate 2 7 100 (by decide) (by decide)
     (by decide) (by decide) rfl⟩

/-- C7: `sys_wait4` returns `ECHILD` without blocking whenever the candidate
set is empty — no children at all in any-child mode, the given pid not one
of the caller's children in specific-pid mode, or a selected child with no
status record — and suspends only when candidates exist and none of them is
`Exited`. -/
theorem wait4_echild_vs_block (env : Env) (s : KState) (ws : Nat)
    (hws : ws = 0 ∨ env.checkMutPtr ws = true) :
    (s.mgr.getChildren s.curPid = [] →
      sys_wait4 env (-1) ws s = Outcome.err SysError.ECHILD s) ∧
    (∀ p : Nat, 0 < p → p ∉ s.mgr.getChildren s.curPid →
      sys_wait4 env (p : Int) ws s = Outcome.err SysError.ECHILD s) ∧
    (∀ p : Nat, 0 < p → p ∈ s.mgr.getChildren s.curPid → s.mgr.getStatus p = none →
      sys_wait4 env (p : Int) ws s = Outcome.err SysError.ECHILD s) ∧
    (∀ (pid : Int) (s' : KState), sys_wait4 env pid ws s = Outcome.block s' →
      s.mgr.getChildren s.curPid ≠ [] ∧
      ∃ t, selectTarget pid = some t ∧ candidates s.mgr s.curPid t ≠ [] ∧
        ∀ p ∈ candidates s.mgr s.curPid t,
          ∃ st, s.mgr.getStatus p = some st ∧ ∀ code, st ≠ Status.exited code) := by
  refine ⟨?_, ?_, ?_, ?_⟩
  · intro h
    unfold sys_wait4
    rw [if_neg (wstatus_gate_false env ws hws), selectTarget_neg_one]
    simp [candidates, h]
  · intro p hp hnm
    unfold sys_wait4
    rw [if_neg (wstatus_gate_false env ws hws), selectTarget_pos p hp]
    simp [candidates, hnm]
  · intro p hp hm hnone
    unfold sys_wait4
    rw [if_neg (wstatus_gate_false env ws hws), selectTarget_pos p hp]
    simp only [candidates, if_pos hm, List.isEmpty_cons, reapFirst, hnone]
    rfl
  · intro pid s' h
    unfold sys_wait4 at h
    rw [if_neg (wstatus_gate_false env ws hws)] at h
    match hsel : selectTarget pid with
    | none => rw [hsel] at h; cases h
    | some t =>
      rw [hsel] at h
      by_cases hemp : (candidates s.mgr s.curPid t).isEmpty
      · simp only [if_pos hemp] at h
        cases h
      · simp only [if_neg hemp] at h
        match hrf : reapFirst ws s (candidates s.mgr s.curPid t) with
        | some o =>
          simp only [hrf] at h
          exact absurd h (reapFirst_some_ne_block ws s _ o hrf s')
        | none =>
          have hcand : candidates s.mgr s.curPid t ≠ [] := fun hcnil => hemp (by rw [hcnil]; rfl)
          have hstat := reapFirst_eq_none ws s _ hrf
          have hchildren : s.mgr.getChildren s.curPid ≠ [] := by
            match t with
            | WaitFor.anyChild => exact hcand
            | WaitFor.pid p =>
              by_cases hm : p ∈ s.mgr.getChildren s.curPid
              · exact List.ne_nil_of_mem hm
              · exact absurd
                  (show candidates s.mgr s.curPid (WaitFor.pid p) = [] by
                    simp [candidates, hm]) hcand
          exact ⟨hchildren, t, rfl, hcand, hstat⟩

theorem wait4_echild_vs_block_witness :
    ((100 : Nat) = 0 ∨ wEnv.checkMutPtr 100 = true) ∧ (0 : Nat) < 5 ∧
    (5 : Nat) ∉ wstate.mgr.getChildren wstate.curPid ∧
    sys_wait4 wEnv 5 100 wstate = Outcome.err SysError.ECHILD wstate :=
  ⟨Or.inr rfl, by decide, by decide,
   (wait4_echild_vs_block wEnv wstate 100 (Or.inr rfl)).2.1 5 (by decide) (by decide)⟩

/-- C4 counterexample: `sys_exit 256` records `Exited(256)` — the full
`as usize` value — not the claimed `Exited(256 & 0xFF) = Exited(0)`. -/
theorem exit_code_mask_cx :
    exitStatusAfter wstate4 256 = some (Status.exited 256) ∧
    Status.exited 256 ≠ Status.exited (256 &&& 255) := by
  decide

/-- C4 (corrected): `sys_exit c` records `Exited(c as usize)` with no
masking to the low byte (so e.g. `exit(256)` is recorded as `Exited(256)`,
not `Exited(0)`); nevertheless a parent's subsequent `wait4(-1, &s)`
observes `s % 256 = c % 256`, because the 32-bit truncating `*wstatus`
write preserves the low byte. -/
theorem exit_records_full_code_wait_sees_low_byte (s : KState) (c : Int) (s1 : KState)
    (hpresent : (alookup s.curPid s.mgr.statuses).isSome)
    (hexit : sys_exit s c = ExitOutcome.terminated s1) :
    s1.mgr.getStatus s.curPid = some (Status.exited (isizeToUsize c)) ∧
    ∀ (env : Env) (sP : KState) (ws : Nat),
      sP.mgr = s1.mgr → sP.mgr.getChildren sP.curPid = [s.curPid] → ws ≠ 0 →
      env.checkMutPtr ws = true →
      ∃ w, sys_wait4 env (-1) ws sP =
          Outcome.ok s.curPid (reapState ws (isizeToUsize c) s.curPid sP) ∧
        alookup ws (reapState ws (isizeToUsize c) s.curPid sP).mem = some w ∧
        w % 256 = c % 256 := by
  have hmgr : s1.mgr = s.mgr.exit s.curPid (isizeToUsize c) := by
    unfold sys_exit at hexit
    match hca : closeAll s.cur.proc (s.cur.proc.files.map (fun q => q.1)) with
    | none => simp only [hca] at hexit; cases hexit
    | some p1 =>
      simp only [hca] at hexit
      injection hexit with h2
      rw [← h2]
  constructor
  · rw [hmgr]
    exact Manager.exit_getStatus_self s.mgr s.curPid (isizeToUsize c) hpresent
  · intro env sP ws hPm hch hws hvalid
    have hst : sP.mgr.getStatus s.curPid = some (Status.exited (isizeToUsize c)) := by
      rw [hPm, hmgr]
      exact Manager.exit_getStatus_self s.mgr s.curPid (isizeToUsize c) hpresent
    exact ⟨usizeToI32 (isizeToUsize c),
      sys_wait4_any_reap_singleton env sP s.curPid (isizeToUsize c) ws hch hst (Or.inr hvalid),
      reapState_mem_lookup ws (isizeToUsize c) s.curPid sP hws,
      usizeToI32_isizeToUsize_emod c⟩

theorem exit_records_full_code_wait_sees_low_byte_witness :
    (alookup wstate4.curPid wstate4.mgr.statuses).isSome ∧
    sys_exit wstate4 256 = ExitOutcome.terminated wExit4 ∧
    ∃ w, sys_wait4 wEnv (-1) 100 wParent4 =
        Outcome.ok wstate4.curPid (reapState 100 (isizeToUsize 256) wstate4.curPid wParent4) ∧
      alookup 100 (reapState 100 (isizeToUsize 256) wstate4.curPid wParent4).mem = some w ∧
      w % 256 = (256 : Int) % 256 :=
  ⟨by decide, by decide,
   (exit_records_full_code_wait_sees_low_byte wstate4 256 wExit4 (by decide) (by decide)).2
     wEnv wParent4 100 (by decide) (by decide) (by decide) rfl⟩

/-- C5: `sys_exit` closes every file descriptor in the caller's table and no
close can fail or divert it (each collected fd is present when closed, so
every `unwrap` succeeds), then records the caller as exited with the manager
and ends in the terminal yield — it never returns. -/
theorem exit_closes_all_fds_infallibly (s : KState) (c : Int)
    (hnodup : (s.cur.proc.files.map (fun q => q.1)).Nodup) :
    ∃ s', sys_exit s c = ExitOutcome.terminated s' ∧
      s'.cur.proc.files = [] ∧
      s'.mgr = s.mgr.exit s.curPid (isizeToUsize c) ∧
      s'.trace = Event.yieldNow :: s.trace :=
  ⟨_, sys_exit_terminated s c hnodup, rfl, rfl, rfl⟩

theorem exit_closes_all_fds_infallibly_witness :
    (wstate.cur.proc.files.map (fun q => q.1)).Nodup ∧
    ∃ s', sys_exit wstate 7 = ExitOutcome.terminated s' ∧
      s'.cur.proc.files = [] ∧
      s'.mgr = wstate.mgr.exit wstate.curPid (isizeToUsize 7) ∧
      s'.trace = Event.yieldNow :: wstate.trace :=
  ⟨by decide, exit_closes_all_fds_infallibly wstate 7 (by decide)⟩

/-- C6: `sys_kill pid` (the target having a status record) records the
target's status as `Exited(0x100)` — a sentinel distinct from any normal
exit code that fits in a byte — so a subsequent `wait4(pid, &s)` observes
`s = 0x100 = 256`; and when the target is the caller itself, `sys_kill`
yields immediately. -/
theorem kill_forces_sentinel_exit (s : KState) (pid : Nat) (s' : KState)
    (hpresent : (alookup pid s.mgr.statuses).isSome)
    (hkill : sys_kill s pid = Outcome.ok 0 s') :
    s'.mgr.getStatus pid = some (Status.exited 0x100) ∧
    (∀ c : Nat, c ≤ 0xFF → Status.exited 0x100 ≠ Status.exited c) ∧
    (pid = s.curPid → s'.trace = Event.yieldNow :: s.trace) ∧
    ∀ (env : Env) (sP : KState) (ws : Nat),
      sP.mgr = s'.mgr → 0 < pid → pid ∈ sP.mgr.getChildren sP.curPid → ws ≠ 0 →
      env.checkMutPtr ws = true →
      sys_wait4 env (pid : Int) ws sP = Outcome.ok pid (reapState ws 0x100 pid sP) ∧
      alookup ws (reapState ws 0x100 pid sP).mem = some 256 := by
  unfold sys_kill at hkill
  injection hkill with hv h
  have hmgr : s'.mgr = s.mgr.exit pid 0x100 := by
    rw [← h]
    split <;> rfl
  refine ⟨?_, ?_, ?_, ?_⟩
  · rw [hmgr]
    exact Manager.exit_getStatus_self s.mgr pid 0x100 hpresent
  · intro c hc hq
    injection hq with hq'
    omega
  · intro hself
    rw [← h, if_pos hself]
  · intro env sP ws hPm hpid hmem hws hvalid
    have hst : sP.mgr.getStatus pid = some (Status.exited 0x100) := by
      rw [hPm, hmgr]
      exact Manager.exit_getStatus_self s.mgr pid 0x100 hpresent
    have h256 : usizeToI32 0x100 = 256 := rfl
    exact ⟨sys_wait4_pid_reap env sP pid 0x100 ws hpid hmem hst (Or.inr hvalid),
      h256 ▸ reapState_mem_lookup ws 0x100 pid sP hws⟩

theorem kill_forces_sentinel_exit_witness :
    (alookup 2 wstate6.mgr.statuses).isSome ∧
    sys_kill wstate6 2 = Outcome.ok 0 wKill6 ∧
    (sys_wait4 wEnv 2 100 wKill6 = Outcome.ok 2 (reapState 100 0x100 2 wKill6) ∧
     alookup 100 (reapState 100 0x100 2 wKill6).mem = some 256) :=
  ⟨by decide, by decide,
   (kill_forces_sentinel_exit wstate6 2 wKill6 (by decide) (by decide)).2.2.2
     wEnv wKill6 100 rfl (by decide) (by decide) (by decide) rfl⟩

end RCore
